/-
  Verification of the entity-aware encoder in `luke/model.py`.

  The numeric code is embedded shallowly over ℝ: a tensor slot is a
  function `Fin H → ℝ`, batched tensors are lists of slots, and the
  library layers the model delegates to (BERT word embeddings, the
  self-attention layers, the prediction-head transform) are abstract
  function parameters, since their code lives outside this repository.
-/
import Mathlib

namespace Luke

/-- A hidden vector of dimension `H` (one tensor slot). -/
def Vec (H : ℕ) := Fin H → ℝ

/-- `EPS` from `model.py` line 11: the numeric-stability epsilon added to
the real-position count before dividing. -/
noncomputable def EPS : ℝ := 1e-12

/-- Parameters of `EntityEmbeddings` (`model.py` lines 29-41): the three
embedding tables and the LayerNorm weights. A table is a function from
row index to row vector. -/
structure EntityEmbeddingsParams (H : ℕ) where
  entity_embeddings : ℕ → Vec H
  position_embeddings : ℕ → Vec H
  token_type_embeddings : ℕ → Vec H
  lnWeight : Vec H
  lnBias : Vec H
  lnEps : ℝ

/-- `BertLayerNorm` of pytorch_transformers (the library module used at
`model.py` line 40): mean/variance over the hidden dimension, then
`w * (x - u) / sqrt(s + eps) + b`. -/
noncomputable def bertLayerNorm {H : ℕ} (w b : Vec H) (eps : ℝ) (x : Vec H) : Vec H :=
  let u : ℝ := (∑ k, x k) / H
  let s : ℝ := (∑ k, (x k - u) ^ 2) / H
  fun k => w k * ((x k - u) / Real.sqrt (s + eps)) + b k

/-- The position term of `EntityEmbeddings.forward` (`model.py` lines 49-53),
for one entity slot: embeddings are looked up at `position_ids.clamp(min=0)`,
multiplied by the 0/1 mask `(position_ids != -1)`, summed over the position
axis, and divided by the mask sum plus `EPS`. -/
noncomputable def positionComponent {H : ℕ} (posEmb : ℕ → Vec H)
    (positionIds : List ℤ) : Vec H := fun k =>
  (positionIds.map (fun pid =>
      posEmb (max pid 0).toNat k * (if pid = -1 then (0 : ℝ) else 1))).sum
    / ((positionIds.map (fun pid => if pid = -1 then (0 : ℝ) else 1)).sum + EPS)

/-- The masked mean-pool as the spec words it: sum of the position
embeddings at the non `-1` position ids, divided by the count of non `-1`
position ids plus the epsilon. Stated for comparison with
`positionComponent`, which is translated from the source. -/
noncomputable def specMaskedMeanPool {H : ℕ} (posEmb : ℕ → Vec H)
    (positionIds : List ℤ) : Vec H := fun k =>
  ((positionIds.filter (fun pid => pid ≠ -1)).map (fun pid => posEmb pid.toNat k)).sum
    / (((positionIds.filter (fun pid => pid ≠ -1)).length : ℝ) + EPS)

/-- One entity slot of `EntityEmbeddings.forward` (`model.py` lines 43-61)
once the optional segment ids have been defaulted: identity row plus
position term plus segment row, LayerNorm, then the multiplicative
dropout mask. -/
noncomputable def entityEmbeddingsSlot {H : ℕ} (p : EntityEmbeddingsParams H)
    (entityId : ℕ) (positionIds : List ℤ) (tokenTypeId : ℕ) (dropMask : Vec H) : Vec H :=
  fun k =>
  bertLayerNorm p.lnWeight p.lnBias p.lnEps
    (fun k => p.entity_embeddings entityId k
      + positionComponent p.position_embeddings positionIds k
      + p.token_type_embeddings tokenTypeId k) k
    * dropMask k

/-- `EntityEmbeddings.forward` over a batch of entity slots
(`model.py` lines 43-61). When `token_type_ids` is `none` the source
substitutes `torch.zeros_like(entity_ids)`. `dropMask` is the per-slot
multiplicative dropout mask (all ones in eval mode). -/
noncomputable def entityEmbeddingsForward {H : ℕ} (p : EntityEmbeddingsParams H)
    (entityIds : List ℕ) (positionIds : List (List ℤ))
    (tokenTypeIds : Option (List ℕ)) (dropMask : ℕ → Vec H) : List (Vec H) :=
  let tts : List ℕ :=
    match tokenTypeIds with
    | none => entityIds.map (fun _ => 0)
    | some t => t
  (List.range entityIds.length).map (fun i =>
    entityEmbeddingsSlot p (entityIds.getD i 0) (positionIds.getD i [])
      (tts.getD i 0) (dropMask i))

/-- The 0/1 indicator sum in the denominator equals the count of non `-1`
position ids. -/
theorem indicatorSum_eq_count (positionIds : List ℤ) :
    (positionIds.map (fun pid => if pid = -1 then (0 : ℝ) else 1)).sum
      = ((positionIds.filter (fun pid => pid ≠ -1)).length : ℝ) := by
  induction positionIds with
  | nil => simp
  | cons pid rest ih =>
    by_cases h : pid = -1
    · simpa [h, List.filter_cons] using ih
    · simp only [List.map_cons, List.sum_cons, if_neg h, List.filter_cons]
      rw [ih]
      simp [h]
      ring

/-- The masked numerator sum equals the sum over the non `-1` ids, provided
every position id is `-1` or nonnegative (so the `clamp(min=0)` lookup at a
real id is the lookup at the id itself). -/
theorem maskedNumerator_eq {H : ℕ} (posEmb : ℕ → Vec H) (k : Fin H)
    (positionIds : List ℤ)
    (hwf : ∀ pid ∈ positionIds, pid = -1 ∨ 0 ≤ pid) :
    (positionIds.map (fun pid =>
        posEmb (max pid 0).toNat k * (if pid = -1 then (0 : ℝ) else 1))).sum
      = ((positionIds.filter (fun pid => pid ≠ -1)).map
          (fun pid => posEmb pid.toNat k)).sum := by
  induction positionIds with
  | nil => simp
  | cons pid rest ih =>
    have hrest : ∀ q ∈ rest, q = -1 ∨ 0 ≤ q := fun q hq => hwf q (List.mem_cons_of_mem _ hq)
    rcases hwf pid (List.mem_cons_self _ _) with h | h
    · simpa [h, List.filter_cons] using ih hrest
    · have hne : pid ≠ -1 := by omega
      have hmax : max pid 0 = pid := max_eq_left h
      simp only [List.map_cons, List.sum_cons, if_neg hne, List.filter_cons, hmax]
      rw [ih hrest]
      simp [hne]

/-- When every position id is the padding value `-1`, every numerator term
is zero. -/
theorem maskedNumerator_all_pad {H : ℕ} (posEmb : ℕ → Vec H) (k : Fin H)
    (positionIds : List ℤ) (hall : ∀ pid ∈ positionIds, pid = -1) :
    (positionIds.map (fun pid =>
        posEmb (max pid 0).toNat k * (if pid = -1 then (0 : ℝ) else 1))).sum = 0 := by
  induction positionIds with
  | nil => simp
  | cons pid rest ih =>
    have hpid := hall pid (List.mem_cons_self _ _)
    have hrest : ∀ q ∈ rest, q = -1 := fun q hq => hall q (List.mem_cons_of_mem _ hq)
    simp only [List.map_cons, List.sum_cons, if_pos hpid, mul_zero, zero_add]
    exact ih hrest

/-- C1: for every entity slot, the position component of
`EntityEmbeddings.forward` is the masked mean-pool of the position
embeddings at the slot's non `-1` position ids (sum of embeddings at real
positions divided by the count of real positions plus `EPS`); the divisor
is strictly positive (no division by zero); and when every position id is
`-1` the component is the zero vector. -/
theorem entityEmbeddings_positionComponent_maskedMeanPool {H : ℕ}
    (posEmb : ℕ → Vec H) (positionIds : List ℤ)
    (hwf : ∀ pid ∈ positionIds, pid = -1 ∨ 0 ≤ pid) :
    positionComponent posEmb positionIds = specMaskedMeanPool posEmb positionIds
    ∧ 0 < (positionIds.map (fun pid => if pid = -1 then (0 : ℝ) else 1)).sum + EPS
    ∧ ((∀ pid ∈ positionIds, pid = -1) →
        positionComponent posEmb positionIds = fun _ => (0 : ℝ)) := by
  refine ⟨?_, ?_, ?_⟩
  · funext k
    rw [positionComponent, specMaskedMeanPool, indicatorSum_eq_count,
      maskedNumerator_eq posEmb k positionIds hwf]
  · rw [indicatorSum_eq_count]
    have h1 : (0 : ℝ) ≤ ((positionIds.filter (fun pid => pid ≠ -1)).length : ℝ) := by
      positivity
    have h2 : (0 : ℝ) < EPS := by rw [EPS]; norm_num
    linarith
  · intro hall
    funext k
    rw [positionComponent]
    rw [maskedNumerator_all_pad posEmb k positionIds hall, zero_div]

/-- Concrete instance of C1: position ids `[2, 3, -1]` satisfy the
well-formedness hypothesis and get the masked mean-pool; the fully padded
slot `[-1, -1]` yields the zero vector. -/
theorem entityEmbeddings_positionComponent_maskedMeanPool_witness :
    (positionComponent (H := 1) (fun _ _ => (1 : ℝ)) [2, 3, -1]
        = specMaskedMeanPool (fun _ _ => (1 : ℝ)) [2, 3, -1]
      ∧ 0 < ([(2 : ℤ), 3, -1].map (fun pid => if pid = -1 then (0 : ℝ) else 1)).sum + EPS)
    ∧ positionComponent (H := 1) (fun _ _ => (1 : ℝ)) [-1, -1] = fun _ => (0 : ℝ) := by
  have h := entityEmbeddings_positionComponent_maskedMeanPool (H := 1)
    (fun _ _ => (1 : ℝ)) [2, 3, -1] (by decide)
  have h2 := entityEmbeddings_positionComponent_maskedMeanPool (H := 1)
    (fun _ _ => (1 : ℝ)) [-1, -1] (by decide)
  exact ⟨⟨h.1, h.2.1⟩, h2.2.2 (by decide)⟩

/-- C10: calling `EntityEmbeddings.forward` with `token_type_ids = None`
gives the same output as the call with every segment id set to `0`. -/
theorem entityEmbeddingsForward_none_token_type {H : ℕ}
    (p : EntityEmbeddingsParams H) (entityIds : List ℕ)
    (positionIds : List (List ℤ)) (dropMask : ℕ → Vec H) :
    entityEmbeddingsForward p entityIds positionIds none dropMask
      = entityEmbeddingsForward p entityIds positionIds
          (some (entityIds.map (fun _ => 0))) dropMask := rfl

/-! ## EntitySelector (`model.py` lines 64-80) -/

/-- Parameters of `EntitySelector`: the candidate embedding table, the
scalar bias table, and the `BertPredictionHeadTransform` applied to the
hidden states (a library module — dense layer, activation, LayerNorm —
kept abstract as a function on hidden vectors). -/
structure EntitySelectorParams (H : ℕ) where
  embeddings : ℕ → Vec H
  bias : ℕ → ℝ
  transform : Vec H → Vec H

/-- The raw score of one candidate id (`model.py` line 77): dot product of
the transformed hidden vector with the candidate's embedding row, plus the
candidate's scalar bias. -/
noncomputable def entitySelectorScore {H : ℕ} (p : EntitySelectorParams H)
    (hidden : Vec H) (cid : ℕ) : ℝ :=
  (∑ k, p.transform hidden k * p.embeddings cid k) + p.bias cid

/-- `EntitySelector.forward` for one mention slot (`model.py` lines 71-80):
the raw scores, with `(entity_candidate_ids == 0) * -10000.0` added. -/
noncomputable def entitySelectorScores {H : ℕ} (p : EntitySelectorParams H)
    (hidden : Vec H) (candidateIds : List ℕ) : List ℝ :=
  candidateIds.map (fun cid =>
    entitySelectorScore p hidden cid + (if cid = 0 then (1 : ℝ) else 0) * (-10000))

/-- Soft-max probability of the `i`-th entry of a score list
(`F.softmax(..., dim=-1)` applied along the candidate axis). -/
noncomputable def softmaxProb (xs : List ℝ) (i : ℕ) : ℝ :=
  Real.exp ((xs.get? i).getD 0) / (xs.map Real.exp).sum

/-- Every member's exponential is at most the sum of exponentials. -/
theorem exp_le_sum_exp (xs : List ℝ) (x : ℝ) (hx : x ∈ xs) :
    Real.exp x ≤ (xs.map Real.exp).sum := by
  induction xs with
  | nil => cases hx
  | cons y ys ih =>
    rcases List.mem_cons.mp hx with h | h
    · subst h
      simp only [List.map_cons, List.sum_cons]
      have hsum : 0 ≤ (ys.map Real.exp).sum := by
        apply List.sum_nonneg
        intro a ha
        obtain ⟨b, _, rfl⟩ := List.mem_map.mp ha
        exact (Real.exp_pos b).le
      linarith
    · have h1 := ih h
      simp only [List.map_cons, List.sum_cons]
      have h2 := (Real.exp_pos y).le
      linarith

/-- `exp (-100)` is far below the `1e-6` threshold. -/
theorem exp_neg_hundred_lt : Real.exp (-100) < 1e-6 := by
  have h2 : (2 : ℝ) ≤ Real.exp 1 := by
    have h := Real.add_one_le_exp 1
    linarith
  have hpow : (2 : ℝ) ^ (100 : ℕ) ≤ Real.exp 1 ^ (100 : ℕ) :=
    pow_le_pow_left (by norm_num) h2 100
  have hexp : Real.exp (100 : ℝ) = Real.exp 1 ^ (100 : ℕ) := by
    rw [← Real.exp_nat_mul]
    norm_num
  have hbig : (1e6 : ℝ) < Real.exp 100 := by
    rw [hexp]
    have : (1e6 : ℝ) < 2 ^ (100 : ℕ) := by norm_num
    linarith
  have hneg : Real.exp (-100) = (Real.exp (100 : ℝ))⁻¹ := by
    rw [← Real.exp_neg]
  rw [hneg]
  have hinv : (Real.exp (100 : ℝ))⁻¹ < (1e6 : ℝ)⁻¹ :=
    inv_lt_inv_of_lt (by norm_num) hbig
  have : ((1e6 : ℝ))⁻¹ = (1e-6 : ℝ) := by norm_num
  linarith

/-- C2 (amended): a candidate slot with the padding id `0` has its score
reduced by the constant `10000`; consequently its soft-max probability is
below `1e-6` whenever some candidate with a nonzero id has a raw score at
least the padding slot's raw score minus `9900` (without such a bound on
the raw scores the guarantee fails, since the penalty is finite). -/
theorem entitySelector_pad_score_penalized {H : ℕ} (p : EntitySelectorParams H)
    (hidden : Vec H) (candidateIds : List ℕ) (i j cj : ℕ)
    (hpad : candidateIds.get? i = some 0)
    (hj : candidateIds.get? j = some cj) (hcj : cj ≠ 0)
    (hclose : entitySelectorScore p hidden 0 ≤ entitySelectorScore p hidden cj + 9900) :
    (entitySelectorScores p hidden candidateIds).get? i
        = some (entitySelectorScore p hidden 0 - 10000)
    ∧ softmaxProb (entitySelectorScores p hidden candidateIds) i < 1e-6 := by
  have hmap : (entitySelectorScores p hidden candidateIds).get? i
      = some (entitySelectorScore p hidden 0 + (1 : ℝ) * (-10000)) := by
    rw [entitySelectorScores, List.get?_map, hpad]
    simp
  constructor
  · rw [hmap]
    congr 1
    ring
  · have hj_mem : cj ∈ candidateIds := List.get?_mem hj
    have hscore_j : entitySelectorScore p hidden cj + (if cj = 0 then (1 : ℝ) else 0) * (-10000)
        ∈ entitySelectorScores p hidden candidateIds :=
      List.mem_map_of_mem _ hj_mem
    have hscore_j' : entitySelectorScore p hidden cj
        ∈ entitySelectorScores p hidden candidateIds := by
      simpa [if_neg hcj] using hscore_j
    set S := ((entitySelectorScores p hidden candidateIds).map Real.exp).sum with hS
    have hSge : Real.exp (entitySelectorScore p hidden cj) ≤ S :=
      exp_le_sum_exp _ _ hscore_j'
    have hSpos : 0 < S := lt_of_lt_of_le (Real.exp_pos _) hSge
    rw [softmaxProb, hmap]
    simp only [Option.getD_some]
    have hstep : Real.exp (entitySelectorScore p hidden 0 + 1 * (-10000)) / S
        ≤ Real.exp (entitySelectorScore p hidden 0 + 1 * (-10000))
            / Real.exp (entitySelectorScore p hidden cj) := by
      apply div_le_div_of_nonneg_left (Real.exp_pos _).le (Real.exp_pos _) hSge
    have hquot : Real.exp (entitySelectorScore p hidden 0 + 1 * (-10000))
        / Real.exp (entitySelectorScore p hidden cj)
        = Real.exp (entitySelectorScore p hidden 0 + 1 * (-10000)
            - entitySelectorScore p hidden cj) := (Real.exp_sub _ _).symm
    have harg : entitySelectorScore p hidden 0 + 1 * (-10000)
        - entitySelectorScore p hidden cj ≤ -100 := by linarith
    have hmono : Real.exp (entitySelectorScore p hidden 0 + 1 * (-10000)
        - entitySelectorScore p hidden cj) ≤ Real.exp (-100) :=
      Real.exp_le_exp.mpr harg
    calc Real.exp (entitySelectorScore p hidden 0 + 1 * (-10000)) / S
        ≤ Real.exp (entitySelectorScore p hidden 0 + 1 * (-10000))
            / Real.exp (entitySelectorScore p hidden cj) := hstep
      _ = Real.exp (entitySelectorScore p hidden 0 + 1 * (-10000)
            - entitySelectorScore p hidden cj) := hquot
      _ ≤ Real.exp (-100) := hmono
      _ < 1e-6 := exp_neg_hundred_lt

/-- A selector parameter set in which the padding row is the zero vector
and one real candidate's row makes its raw score very negative: it
refutes the unconditional form of C2. -/
noncomputable def selectorLowScoreParams : EntitySelectorParams 1 where
  embeddings := fun cid => fun _ => if cid = 0 then 0 else -30000
  bias := fun _ => 0
  transform := fun v => v

/-- C2 counterexample: with candidate ids `[0, 1]`, where the raw score of
the real candidate `1` is `-30000` and of the padding candidate `0` is `0`,
the padding slot's soft-max probability exceeds `1e-6` (indeed `1/2`), so
the penalty does not bound the padding probability regardless of the raw
dot-product scores. -/
theorem entitySelector_pad_prob_not_always_small :
    1e-6 < softmaxProb
      (entitySelectorScores selectorLowScoreParams (fun _ => 1) [0, 1]) 0 := by
  have hscores : entitySelectorScores selectorLowScoreParams (fun _ => 1) [0, 1]
      = [(-10000 : ℝ), -30000] := by
    simp [entitySelectorScores, entitySelectorScore, selectorLowScoreParams,
      Fin.sum_univ_one]
  rw [hscores]
  rw [softmaxProb]
  simp only [List.get?, Option.getD_some, List.map_cons, List.map_nil, List.sum_cons,
    List.sum_nil, add_zero]
  have ha : (0 : ℝ) < Real.exp (-10000) := Real.exp_pos _
  have hb : Real.exp (-30000) < Real.exp (-10000) := Real.exp_lt_exp.mpr (by norm_num)
  have hbpos : (0 : ℝ) < Real.exp (-30000) := Real.exp_pos _
  have hdenom : (0 : ℝ) < Real.exp (-10000) + Real.exp (-30000) := by linarith
  have hhalf : (1 : ℝ) / 2 < Real.exp (-10000) / (Real.exp (-10000) + Real.exp (-30000)) := by
    rw [div_lt_div_iff (by norm_num) hdenom]
    linarith
  linarith

/-- Concrete instance of the amended C2: all-zero selector weights, hidden
vector of ones, candidates `[0, 1]`; the raw-score gap hypothesis holds and
the padding slot's probability is below `1e-6`. -/
noncomputable def selectorZeroParams : EntitySelectorParams 1 where
  embeddings := fun _ _ => 0
  bias := fun _ => 0
  transform := fun v => v

/-- Witness for the amended C2 at a concrete input. -/
theorem entitySelector_pad_score_penalized_witness :
    (entitySelectorScores selectorZeroParams (fun _ => 1) [0, 1]).get? 0
        = some (entitySelectorScore selectorZeroParams (fun _ => 1) 0 - 10000)
    ∧ softmaxProb (entitySelectorScores selectorZeroParams (fun _ => 1) [0, 1]) 0 < 1e-6 :=
  entitySelector_pad_score_penalized selectorZeroParams (fun _ => 1) [0, 1] 0 1 1
    rfl rfl (by norm_num)
    (by simp [entitySelectorScore, selectorZeroParams])

/-! ## Weight initialization (`model.py` lines 36, 94-106) -/

/-- `nn.Embedding(rows, cols, padding_idx=0)` construction: the library
draws every row from its reset sampler and then zeroes the padding row. -/
def nnEmbeddingConstruct {H : ℕ} (samples : ℕ → Vec H) (paddingIdx : Option ℕ) :
    ℕ → Vec H :=
  fun r => if paddingIdx = some r then (fun _ => 0) else samples r

/-- `init_weights` applied to an `nn.Embedding` module
(`model.py` lines 97-101): a 1-dimensional embedding (a bias table) is
zeroed, and any other embedding has its whole weight matrix redrawn from
the normal sampler. No branch re-zeroes a padding row. -/
def initWeightsEmbedding (H : ℕ) (normalSamples : ℕ → Vec H) (_w : ℕ → Vec H) :
    ℕ → Vec H :=
  if H = 1 then fun _ _ => 0 else fun r => normalSamples r

/-- C5 counterexample: running `init_weights` on the entity-identity
embedding (dimension 2 here) with a normal sampler that returns ones
leaves row 0 equal to ones, not the zero vector, even though the row was
zero at construction. -/
theorem initWeights_pad_row_not_zero :
    initWeightsEmbedding 2 (fun _ _ => (1 : ℝ))
        (nnEmbeddingConstruct (fun _ _ => 0) (some 0)) 0 ≠ (fun _ => 0) := by
  intro h
  have h0 := congrFun h ⟨0, by norm_num⟩
  rw [initWeightsEmbedding] at h0
  norm_num at h0

/-- C5 (amended): `nn.Embedding(..., padding_idx=0)` pins row 0 to the
zero vector at construction, and an entity slot with id 0 then contributes
no identity term to the embedding sum; but `init_weights` redraws the
whole matrix from the normal sampler without re-zeroing the padding row,
so after `init_weights` row 0 equals the drawn samples, not the zero
vector. -/
theorem entityEmbedding_pad_row_pinned_at_construction {H : ℕ}
    (samples normalSamples : ℕ → Vec H) :
    nnEmbeddingConstruct samples (some 0) 0 = (fun _ => 0)
    ∧ (∀ (p : EntityEmbeddingsParams H),
        p.entity_embeddings = nnEmbeddingConstruct samples (some 0) →
        ∀ (positionIds : List ℤ) (tokenTypeId : ℕ) (dropMask : Vec H),
          entityEmbeddingsSlot p 0 positionIds tokenTypeId dropMask
            = fun k => bertLayerNorm p.lnWeight p.lnBias p.lnEps
                (fun k2 => positionComponent p.position_embeddings positionIds k2
                  + p.token_type_embeddings tokenTypeId k2) k * dropMask k)
    ∧ (H ≠ 1 →
        initWeightsEmbedding H normalSamples (nnEmbeddingConstruct samples (some 0))
          = fun r => normalSamples r) := by
  refine ⟨?_, ?_, ?_⟩
  · rw [nnEmbeddingConstruct]
    simp
  · intro p hp positionIds tokenTypeId dropMask
    funext k
    rw [entityEmbeddingsSlot]
    have hfun : (fun k2 => p.entity_embeddings 0 k2
        + positionComponent p.position_embeddings positionIds k2
        + p.token_type_embeddings tokenTypeId k2)
        = fun k2 => positionComponent p.position_embeddings positionIds k2
          + p.token_type_embeddings tokenTypeId k2 := by
      funext k2
      rw [hp, nnEmbeddingConstruct]
      simp
    rw [hfun]
  · intro hH
    rw [initWeightsEmbedding, if_neg hH]

/-- An `EntityEmbeddings` parameter set whose identity table is the
construction-time table with pinned padding row. -/
noncomputable def pinnedEntityParams : EntityEmbeddingsParams 2 where
  entity_embeddings := nnEmbeddingConstruct (fun _ _ => 1) (some 0)
  position_embeddings := fun _ _ => 0
  token_type_embeddings := fun _ _ => 0
  lnWeight := fun _ => 1
  lnBias := fun _ => 0
  lnEps := 1

/-- Witness for the amended C5 at dimension 2 with a ones sampler: the
constructed row 0 is zero, an id-0 slot's identity term drops out of the
embedding sum, and after `init_weights` the table equals the sampler
output (so row 0 is all ones). -/
theorem entityEmbedding_pad_row_pinned_at_construction_witness :
    nnEmbeddingConstruct (H := 2) (fun _ _ => (1 : ℝ)) (some 0) 0 = (fun _ => 0)
    ∧ entityEmbeddingsSlot pinnedEntityParams 0 [0] 0 (fun _ => 1)
        = (fun k => bertLayerNorm pinnedEntityParams.lnWeight pinnedEntityParams.lnBias
            pinnedEntityParams.lnEps
            (fun k2 => positionComponent pinnedEntityParams.position_embeddings [0] k2
              + pinnedEntityParams.token_type_embeddings 0 k2) k * (fun _ => (1 : ℝ)) k)
    ∧ initWeightsEmbedding 2 (fun _ _ => (1 : ℝ))
        (nnEmbeddingConstruct (fun _ _ => (1 : ℝ)) (some 0))
        = fun _ _ => (1 : ℝ) := by
  have h := entityEmbedding_pad_row_pinned_at_construction (H := 2)
    (fun _ _ => (1 : ℝ)) (fun _ _ => (1 : ℝ))
  exact ⟨h.1, h.2.1 pinnedEntityParams rfl [0] 0 (fun _ => 1), h.2.2 (by norm_num)⟩

/-! ## Parameter tying in `LukeE2EModel.__init__` (`model.py` lines 172-181) -/

/-- The embedding-side weight tensors created by `LukeE2EModel.__init__`
before the tying assignment, each path bound to its own fresh storage
cell. -/
def lukeE2EFreshBinding : List (String × ℕ) :=
  [("embeddings.word_embeddings.weight", 0),
   ("entity_embeddings.entity_embeddings.weight", 1),
   ("entity_embeddings.position_embeddings.weight", 2),
   ("entity_embeddings.token_type_embeddings.weight", 3),
   ("mask_entity_embeddings.entity_embeddings.weight", 4),
   ("entity_selector.embeddings.weight", 5),
   ("entity_selector.bias.weight", 6)]

/-- The storage cell a dotted parameter path currently denotes. -/
def bindingLookup (b : List (String × ℕ)) (path : String) : Option ℕ :=
  (b.find? (fun e => e.1 = path)).map (fun e => e.2)

/-- Rebinding a path to another storage cell (a Python attribute
assignment of one parameter object to another access path). -/
def bindingSet (b : List (String × ℕ)) (path : String) (cell : ℕ) :
    List (String × ℕ) :=
  b.map (fun e => if e.1 = path then (path, cell) else e)

/-- The binding after `model.py` line 181
(`self.entity_selector.embeddings.weight = self.entity_embeddings.entity_embeddings.weight`):
the selector's embedding path is rebound to the cell holding the main
entity-identity table. -/
def lukeE2EBinding : List (String × ℕ) :=
  match bindingLookup lukeE2EFreshBinding "entity_embeddings.entity_embeddings.weight" with
  | some c => bindingSet lukeE2EFreshBinding "entity_selector.embeddings.weight" c
  | none => lukeE2EFreshBinding

/-- Reading a parameter tensor through a path: follow the path's cell into
the heap of tensors. -/
def readParam {α : Type} (heap : ℕ → α) (b : List (String × ℕ)) (path : String) :
    Option α :=
  (bindingLookup b path).map heap

/-- Writing a parameter tensor through a path (what the optimizer does
when it mutates a weight). -/
def writeParam {α : Type} (heap : ℕ → α) (b : List (String × ℕ)) (path : String)
    (v : α) : ℕ → α :=
  match bindingLookup b path with
  | some c => fun c2 => if c2 = c then v else heap c2
  | none => heap

/-- C4: after `LukeE2EModel.__init__`, the entity-selector embedding table
and the main entity-identity embedding table are one shared parameter:
both paths resolve to the same storage cell, and a write through either
path is observed through the other. -/
theorem lukeE2E_selector_embeddings_tied (α : Type) (heap : ℕ → α) (v : α) :
    bindingLookup lukeE2EBinding "entity_selector.embeddings.weight"
      = bindingLookup lukeE2EBinding "entity_embeddings.entity_embeddings.weight"
    ∧ readParam (writeParam heap lukeE2EBinding "entity_selector.embeddings.weight" v)
        lukeE2EBinding "entity_embeddings.entity_embeddings.weight" = some v
    ∧ readParam (writeParam heap lukeE2EBinding "entity_embeddings.entity_embeddings.weight" v)
        lukeE2EBinding "entity_selector.embeddings.weight" = some v := by
  refine ⟨by rfl, by rfl, by rfl⟩

/-! ## Stage-1 encoder construction (`model.py` lines 176-181, 193-196) -/

/-- The `LukeE2EConfig` fields that decide the encoder stack sizes. -/
structure LukeE2EConfigData where
  num_hidden_layers : ℕ
  num_el_hidden_layers : ℕ

/-- `BertEncoder(config)` (library): a stack of `config.num_hidden_layers`
fresh transformer layers, each layer an abstract sequence transformer. -/
def mkBertEncoder {σ : Type} (numHiddenLayers : ℕ) (freshLayer : ℕ → (σ → σ)) :
    List (σ → σ) :=
  (List.range numHiddenLayers).map freshLayer

/-- The entity-linking encoder stack built by `LukeE2EModel.__init__`
lines 177-179: `el_config` is a copy of `config` whose
`num_hidden_layers` is set to `num_el_hidden_layers`, but the constructor
call on line 179 passes `config`, so the stack is built with
`config.num_hidden_layers` layers and `el_config` is never used. -/
def lukeE2EInitElEncoder {σ : Type} (config : LukeE2EConfigData)
    (freshLayer : ℕ → (σ → σ)) : List (σ → σ) :=
  let _el_config : LukeE2EConfigData :=
    { config with num_hidden_layers := config.num_el_hidden_layers }
  mkBertEncoder config.num_hidden_layers freshLayer

/-- `BertEncoder.forward` (library): applies the layers in order, reading
`head_mask[i]` at layer `i`; when the head-mask list is shorter than the
layer stack the indexing raises (modelled as `none`). -/
def bertEncoderForward {σ : Type} : List (σ → σ) → List (Option Unit) → σ → Option σ
  | [], _, x => some x
  | _ :: _, [], _ => none
  | l :: ls, _ :: hs, x => bertEncoderForward ls hs (l x)

/-- C3 (code bug): for every config the el-encoder stack built by
`__init__` has `num_hidden_layers` layers — not `num_el_hidden_layers` as
the dead `el_config` intends — and at the failing input
(`num_hidden_layers = 12`, `num_el_hidden_layers = 3`) the stage-1 call of
`forward`, which passes a head-mask list of length
`num_el_hidden_layers = 3`, fails with an index error. -/
theorem lukeE2E_elEncoder_layer_count_bug :
    (∀ (σ : Type) (config : LukeE2EConfigData) (freshLayer : ℕ → (σ → σ)),
        (lukeE2EInitElEncoder config freshLayer).length = config.num_hidden_layers)
    ∧ (lukeE2EInitElEncoder ⟨12, 3⟩
        (fun _ => (id : List (Vec 1) → List (Vec 1)))).length = 12
    ∧ bertEncoderForward
        (lukeE2EInitElEncoder ⟨12, 3⟩ (fun _ => (id : List (Vec 1) → List (Vec 1))))
        (List.replicate (3 : ℕ) none) ([] : List (Vec 1)) = none := by
  refine ⟨?_, by rfl, by rfl⟩
  intro σ config freshLayer
  rw [lukeE2EInitElEncoder, mkBertEncoder]
  simp

/-! ## `LukeE2EModel.forward` (`model.py` lines 183-223)

The word-side BERT embedding, the transformer layers and the pooler are
library modules; they appear as abstract function parameters. A
transformer layer takes the additive attention-bias vector and the
sequence. The per-call dropout masks of the three `EntityEmbeddings`
invocations are explicit inputs. -/

/-- `LukeBaseModel._compute_extended_attention_mask`
(`model.py` lines 144-150): concatenate the word and entity masks and map
`m ↦ (1 - m) * -10000`. -/
noncomputable def computeExtendedAttentionMask (wordMask entityMask : List ℕ) :
    List ℝ :=
  (wordMask ++ entityMask).map (fun m => (1 - (m : ℝ)) * (-10000))

/-- Weights and sub-modules of `LukeE2EModel`. -/
structure LukeE2EModelParams (H : ℕ) where
  num_hidden_layers : ℕ
  num_el_hidden_layers : ℕ
  entity_selector_softmax_temp : ℝ
  embeddings : List ℕ → List ℕ → List (Vec H)
  entity_embeddings : EntityEmbeddingsParams H
  mask_entity_embeddings : EntityEmbeddingsParams H
  entity_selector : EntitySelectorParams H
  el_encoder : List (List ℝ → List (Vec H) → List (Vec H))
  encoder : List (List ℝ → List (Vec H) → List (Vec H))
  pooler : List (Vec H) → Vec H

/-- The tensor inputs of `LukeE2EModel.forward` (one example; the batch
axis is dropped since every operation is per-example). -/
structure LukeE2EInputs where
  word_ids : List ℕ
  word_segment_ids : List ℕ
  word_attention_mask : List ℕ
  entity_candidate_ids : List (List ℕ)
  entity_position_ids : List (List ℤ)
  entity_segment_ids : List ℕ
  entity_attention_mask : List ℕ

/-- Dropout masks drawn for the three `EntityEmbeddings` calls inside one
forward pass (all-ones in eval mode). -/
structure E2EDropMasks (H : ℕ) where
  maskEmb : ℕ → Vec H
  candEmb : ℕ → ℕ → Vec H
  overrideEmb : ℕ → Vec H

/-- The returned tuple of `LukeE2EModel.forward`; the selector-score
element is present only when `output_entity_selector_scores` is set. -/
structure LukeE2EOutputs (H : ℕ) where
  word_sequence_output : List (Vec H)
  entity_sequence_output : List (Vec H)
  pooled_output : Vec H
  entity_selector_scores : Option (List (List ℝ))

/-- `model.py` lines 190-191: the masked-entity embedding of every mention
slot, computed by the 2-row table `mask_entity_embeddings` with
`entity_attention_mask` passed as the `entity_ids` argument. -/
noncomputable def lukeE2EMaskEntityEmbeddingOutput {H : ℕ}
    (p : LukeE2EModelParams H) (inp : LukeE2EInputs) (drop : E2EDropMasks H) :
    List (Vec H) :=
  entityEmbeddingsForward p.mask_entity_embeddings inp.entity_attention_mask
    inp.entity_position_ids (some inp.entity_segment_ids) drop.maskEmb

/-- `model.py` lines 193-196: word embeddings concatenated with the
masked-entity embeddings, run through the el-encoder with a head-mask list
of length `num_el_hidden_layers`, keeping the entity span of the output. -/
noncomputable def lukeE2EElEntityHidden {H : ℕ} (p : LukeE2EModelParams H)
    (inp : LukeE2EInputs) (drop : E2EDropMasks H) : Option (List (Vec H)) :=
  let extended := computeExtendedAttentionMask inp.word_attention_mask
    inp.entity_attention_mask
  let word_embedding_output := p.embeddings inp.word_ids inp.word_segment_ids
  let el_embedding_output :=
    word_embedding_output ++ lukeE2EMaskEntityEmbeddingOutput p inp drop
  (bertEncoderForward (p.el_encoder.map (fun l => l extended))
      (List.replicate p.num_el_hidden_layers none) el_embedding_output).map
    (fun s => s.drop inp.word_ids.length)

/-- `model.py` line 197: the selector scores as `EntitySelector` produces
them, before the temperature division. -/
noncomputable def lukeE2ERawSelectorScores {H : ℕ} (p : LukeE2EModelParams H)
    (inp : LukeE2EInputs) (drop : E2EDropMasks H) : Option (List (List ℝ)) :=
  (lukeE2EElEntityHidden p inp drop).map (fun hid =>
    (List.range inp.entity_candidate_ids.length).map (fun s =>
      entitySelectorScores p.entity_selector (hid.getD s (fun _ => 0))
        (inp.entity_candidate_ids.getD s [])))

/-- `model.py` line 198: the selector scores divided by the configured
soft-max temperature; this reassigned value is what the rest of `forward`
uses, the soft-max included. -/
noncomputable def lukeE2EScaledSelectorScores {H : ℕ} (p : LukeE2EModelParams H)
    (inp : LukeE2EInputs) (drop : E2EDropMasks H) : Option (List (List ℝ)) :=
  (lukeE2ERawSelectorScores p inp drop).map (fun rows =>
    rows.map (fun row => row.map (fun x => x / p.entity_selector_softmax_temp)))

/-- The probability-weighted sum of candidate vectors
(`(entity_embedding_output * probs.unsqueeze(-1)).sum(-2)`, line 203). -/
noncomputable def weightedSum {H : ℕ} (probs : List ℝ) (vecs : List (Vec H)) :
    Vec H :=
  fun k => (List.zipWith (fun pr v => pr * v k) probs vecs).sum

/-- `model.py` lines 199-203: soft-max the scaled scores along the
candidate axis and mix each slot's per-candidate entity embeddings by the
resulting probabilities. Each candidate shares the slot's position ids and
segment id (the `unsqueeze` calls on line 201-202). -/
noncomputable def lukeE2EMixedEmbedding {H : ℕ} (p : LukeE2EModelParams H)
    (inp : LukeE2EInputs) (drop : E2EDropMasks H) : Option (List (Vec H)) :=
  (lukeE2EScaledSelectorScores p inp drop).map (fun rows =>
    (List.range inp.entity_candidate_ids.length).map (fun s =>
      let row := rows.getD s []
      let probs := (List.range row.length).map (fun c => softmaxProb row c)
      let cands := inp.entity_candidate_ids.getD s []
      let embs := (List.range cands.length).map (fun c =>
        entityEmbeddingsSlot p.entity_embeddings (cands.getD c 0)
          (inp.entity_position_ids.getD s []) (inp.entity_segment_ids.getD s 0)
          (drop.candEmb s c))
      weightedSum probs embs))

/-- `tensor.masked_fill(cond, 0)` for one slot's vector. -/
def maskedFillVec {H : ℕ} (v : Vec H) (cond : Bool) : Vec H :=
  if cond then (fun _ => 0) else v

/-- `model.py` lines 205-210: when ground-truth masked-entity labels are
supplied, compute a masked-token embedding with entity id 2 for every
slot (`mask_entity_ids` is filled with 2, "index of [MASK] token is 2"),
zero it where the label is `-1`, zero the mixed embedding where the label
is not `-1`, and add. -/
noncomputable def lukeE2EOverride {H : ℕ} (p : EntityEmbeddingsParams H)
    (mixed : List (Vec H)) (labels : List ℤ) (positionIds : List (List ℤ))
    (segmentIds : List ℕ) (dropO : ℕ → Vec H) : List (Vec H) :=
  (List.range mixed.length).map (fun s =>
    let mask_embedding := maskedFillVec
      (entityEmbeddingsSlot p 2 (positionIds.getD s []) (segmentIds.getD s 0) (dropO s))
      (labels.getD s 0 == -1)
    let mixed_s := maskedFillVec (mixed.getD s (fun _ => 0))
      (!(labels.getD s 0 == -1))
    fun k => mixed_s k + mask_embedding k)

/-- `LukeE2EModel.forward` (`model.py` lines 183-223). `none` models a
raised exception (the head-mask indexing of an encoder stack longer than
its head-mask list). -/
noncomputable def lukeE2EForward {H : ℕ} (p : LukeE2EModelParams H)
    (inp : LukeE2EInputs) (masked_entity_labels : Option (List ℤ))
    (output_entity_selector_scores : Bool) (drop : E2EDropMasks H) :
    Option (LukeE2EOutputs H) :=
  (lukeE2EMixedEmbedding p inp drop).bind (fun mixed =>
    (lukeE2EScaledSelectorScores p inp drop).bind (fun scaled =>
      let entity_embedding_output :=
        match masked_entity_labels with
        | none => mixed
        | some labels => lukeE2EOverride p.entity_embeddings mixed labels
            inp.entity_position_ids inp.entity_segment_ids drop.overrideEmb
      let word_embedding_output := p.embeddings inp.word_ids inp.word_segment_ids
      let extended := computeExtendedAttentionMask inp.word_attention_mask
        inp.entity_attention_mask
      (bertEncoderForward (p.encoder.map (fun l => l extended))
          (List.replicate p.num_hidden_layers none)
          (word_embedding_output ++ entity_embedding_output)).map
        (fun seq =>
          { word_sequence_output := seq.take inp.word_ids.length
            entity_sequence_output := seq.drop inp.word_ids.length
            pooled_output := p.pooler seq
            entity_selector_scores :=
              if output_entity_selector_scores then some scaled else none })))

/-- C6: the override step keeps the probability-weighted mixed embedding
at every slot whose label is `-1` and replaces it by the fresh
masked-token embedding computed with entity id 2 at every slot whose
label is not `-1`. (`lukeE2EForward` applies `lukeE2EOverride` exactly
when `masked_entity_labels` is supplied.) -/
theorem lukeE2EOverride_label_characterization {H : ℕ}
    (p : EntityEmbeddingsParams H) (mixed : List (Vec H)) (labels : List ℤ)
    (positionIds : List (List ℤ)) (segmentIds : List ℕ) (dropO : ℕ → Vec H)
    (s : ℕ) (hs : s < mixed.length) :
    (lukeE2EOverride p mixed labels positionIds segmentIds dropO).get? s
      = some (if labels.getD s 0 = -1 then mixed.getD s (fun _ => 0)
          else entityEmbeddingsSlot p 2 (positionIds.getD s [])
            (segmentIds.getD s 0) (dropO s)) := by
  rw [lukeE2EOverride, List.get?_map, List.get?_range hs]
  simp only [Option.map_some']
  congr 1
  by_cases h : labels.getD s 0 = -1
  · have hb : (labels.getD s 0 == -1) = true := beq_iff_eq.mpr h
    funext k
    rw [hb, if_pos h]
    simp [maskedFillVec]
  · have hb : (labels.getD s 0 == -1) = false := beq_eq_false_iff_ne.mpr h
    funext k
    rw [hb, if_neg h]
    simp [maskedFillVec]

/-- C9: in the stage-1 pass, the ids looked up in the 2-row masked-entity
table are the entity attention-mask values themselves: slot `s`'s
masked-entity embedding is the `EntityEmbeddings` slot computation whose
entity id is `entity_attention_mask[s]` (row 1 of the table for a real
slot, row 0 for a padded slot). -/
theorem lukeE2E_maskEntityIds_are_attention_mask {H : ℕ}
    (p : LukeE2EModelParams H) (inp : LukeE2EInputs) (drop : E2EDropMasks H)
    (s : ℕ) (hs : s < inp.entity_attention_mask.length) :
    (lukeE2EMaskEntityEmbeddingOutput p inp drop).get? s
      = some (entityEmbeddingsSlot p.mask_entity_embeddings
          (inp.entity_attention_mask.getD s 0)
          (inp.entity_position_ids.getD s [])
          (inp.entity_segment_ids.getD s 0) (drop.maskEmb s)) := by
  rw [lukeE2EMaskEntityEmbeddingOutput, entityEmbeddingsForward]
  rw [List.get?_map, List.get?_range hs]
  rfl

/-- C8 (amended): when `forward` succeeds with selector-score output
requested, the selector-score element of the returned tuple equals the
raw stage-1 selector scores divided elementwise by the configured
soft-max temperature — the variable is reassigned to the scaled scores on
line 198 before being returned on line 220. -/
theorem lukeE2EForward_returns_scaled_scores {H : ℕ} (p : LukeE2EModelParams H)
    (inp : LukeE2EInputs) (masked_entity_labels : Option (List ℤ))
    (drop : E2EDropMasks H) (out : LukeE2EOutputs H)
    (hout : lukeE2EForward p inp masked_entity_labels true drop = some out) :
    ∃ raw, lukeE2ERawSelectorScores p inp drop = some raw
      ∧ out.entity_selector_scores = some (raw.map (fun row =>
          row.map (fun x => x / p.entity_selector_softmax_temp))) := by
  cases hraw : lukeE2ERawSelectorScores p inp drop with
  | none =>
    rw [lukeE2EForward, lukeE2EMixedEmbedding, lukeE2EScaledSelectorScores, hraw] at hout
    simp at hout
  | some raw =>
    refine ⟨raw, rfl, ?_⟩
    rw [lukeE2EForward, lukeE2EMixedEmbedding, lukeE2EScaledSelectorScores, hraw] at hout
    simp only [Option.map_some', Option.some_bind] at hout
    rcases Option.map_eq_some'.mp hout with ⟨seq, _, hfields⟩
    rw [← hfields]
    simp

/-- An `EntityEmbeddings` parameter set with zero tables (the LayerNorm
weight is one, the bias zero). -/
noncomputable def zeroEntityEmbeddingsParams : EntityEmbeddingsParams 1 where
  entity_embeddings := fun _ _ => 0
  position_embeddings := fun _ _ => 0
  token_type_embeddings := fun _ _ => 0
  lnWeight := fun _ => 1
  lnBias := fun _ => 0
  lnEps := 1

/-- A one-dimensional `LukeE2EModel` with empty encoder stacks, soft-max
temperature 2, and a selector whose transform is the constant vector 3
against an all-ones candidate table, so every candidate's raw score is 3. -/
noncomputable def toyE2EParams : LukeE2EModelParams 1 where
  num_hidden_layers := 0
  num_el_hidden_layers := 0
  entity_selector_softmax_temp := 2
  embeddings := fun _ _ => []
  entity_embeddings := zeroEntityEmbeddingsParams
  mask_entity_embeddings := zeroEntityEmbeddingsParams
  entity_selector :=
    { embeddings := fun _ _ => 1
      bias := fun _ => 0
      transform := fun _ _ => 3 }
  el_encoder := []
  encoder := []
  pooler := fun _ _ => 0

/-- One mention slot with the single real candidate id 57, no word
tokens. -/
def oneCandidateInputs : LukeE2EInputs where
  word_ids := []
  word_segment_ids := []
  word_attention_mask := []
  entity_candidate_ids := [[57]]
  entity_position_ids := [[0]]
  entity_segment_ids := [0]
  entity_attention_mask := [1]

/-- All-ones dropout masks (eval mode). -/
noncomputable def onesDropMasks : E2EDropMasks 1 where
  maskEmb := fun _ _ => 1
  candEmb := fun _ _ _ => 1
  overrideEmb := fun _ _ => 1

/-- C8 counterexample: with temperature 2 and a single candidate of raw
selector score 3, the score element of the tuple returned by `forward` is
`3 / 2`, not the raw score 3. -/
theorem lukeE2EForward_scores_not_raw :
    lukeE2ERawSelectorScores toyE2EParams oneCandidateInputs onesDropMasks
        = some [[(3 : ℝ)]]
    ∧ (lukeE2EForward toyE2EParams oneCandidateInputs none true onesDropMasks).map
        (fun o => o.entity_selector_scores) = some (some [[(3 : ℝ) / 2]])
    ∧ ((3 : ℝ) / 2) ≠ 3 := by
  have hraw : lukeE2ERawSelectorScores toyE2EParams oneCandidateInputs onesDropMasks
      = some [[(3 : ℝ)]] := by
    rw [lukeE2ERawSelectorScores, lukeE2EElEntityHidden]
    simp [toyE2EParams, oneCandidateInputs, bertEncoderForward,
      entitySelectorScores, entitySelectorScore, Fin.sum_univ_one, List.range_succ]
  have hscaled : lukeE2EScaledSelectorScores toyE2EParams oneCandidateInputs onesDropMasks
      = some [[(3 : ℝ) / 2]] := by
    rw [lukeE2EScaledSelectorScores, hraw]
    simp [toyE2EParams]
  refine ⟨hraw, ?_, by norm_num⟩
  rw [lukeE2EForward, lukeE2EMixedEmbedding, hscaled]
  simp only [Option.map_some', Option.some_bind]
  simp [toyE2EParams, oneCandidateInputs, bertEncoderForward]

/-- Inputs with no word tokens and no mention slots. -/
def emptyE2EInputs : LukeE2EInputs where
  word_ids := []
  word_segment_ids := []
  word_attention_mask := []
  entity_candidate_ids := []
  entity_position_ids := []
  entity_segment_ids := []
  entity_attention_mask := []

/-- Witness for the amended C8: on the empty input the forward pass
succeeds and the theorem yields the returned score element. -/
theorem lukeE2EForward_returns_scaled_scores_witness :
    ∃ raw, lukeE2ERawSelectorScores toyE2EParams emptyE2EInputs onesDropMasks = some raw
      ∧ (some ([] : List (List ℝ)) : Option (List (List ℝ)))
          = some (raw.map (fun row =>
              row.map (fun x => x / toyE2EParams.entity_selector_softmax_temp))) := by
  have h := lukeE2EForward_returns_scaled_scores toyE2EParams emptyE2EInputs none
    onesDropMasks
    { word_sequence_output := []
      entity_sequence_output := []
      pooled_output := fun _ => 0
      entity_selector_scores := some [] } rfl
  exact h

/-- Witness for C6 at one slot with label 0 (not `-1`): the theorem
instance at `s = 0`. -/
theorem lukeE2EOverride_label_characterization_witness :
    (lukeE2EOverride zeroEntityEmbeddingsParams [fun _ => (5 : ℝ)] [0] [[0]] [0]
        (fun _ _ => 1)).get? 0
      = some (if (([0] : List ℤ).getD 0 0) = -1
          then ([fun _ => (5 : ℝ)] : List (Vec 1)).getD 0 (fun _ => 0)
          else entityEmbeddingsSlot zeroEntityEmbeddingsParams 2
            (([[0]] : List (List ℤ)).getD 0 []) (([0] : List ℕ).getD 0 0)
            ((fun _ _ => (1 : ℝ)) 0)) :=
  lukeE2EOverride_label_characterization zeroEntityEmbeddingsParams
    [fun _ => (5 : ℝ)] [0] [[0]] [0] (fun _ _ => 1) 0 (by norm_num)

/-- Witness for C9 at one mention slot whose attention-mask value is 1:
the theorem instance at `s = 0`. -/
theorem lukeE2E_maskEntityIds_are_attention_mask_witness :
    (lukeE2EMaskEntityEmbeddingOutput toyE2EParams oneCandidateInputs onesDropMasks).get? 0
      = some (entityEmbeddingsSlot toyE2EParams.mask_entity_embeddings
          (oneCandidateInputs.entity_attention_mask.getD 0 0)
          (oneCandidateInputs.entity_position_ids.getD 0 [])
          (oneCandidateInputs.entity_segment_ids.getD 0 0)
          (onesDropMasks.maskEmb 0)) :=
  lukeE2E_maskEntityIds_are_attention_mask toyE2EParams oneCandidateInputs
    onesDropMasks 0 (by norm_num [oneCandidateInputs])

/-! ## Checkpoint loading (`model.py` lines 108-142)

Dotted parameter paths are modelled as character lists (`List Char`) so
that the substring renaming is fully computable; a checkpoint tensor is a
shape plus flat integer contents. `torch`'s `_load_from_state_dict`
recursion is flattened over the parameter list: a present key with a
matching shape is copied, a present key with a mismatched shape appends a
"size mismatch" message naming the parameter path, an absent key is
missing, and a state-dict key matching no parameter is unexpected. -/

/-- A parameter or checkpoint tensor: shape and flat contents. -/
structure PTensor where
  shape : List ℕ
  data : List ℤ
deriving DecidableEq

/-- A model parameter: its dotted path and its initialized tensor. -/
structure ModelParam where
  key : List Char
  init : PTensor
deriving DecidableEq

/-- A logger event (`logger.info`). -/
inductive LogEvent where
  | info : List Char → LogEvent
deriving DecidableEq

/-- A checkpoint state dict: an ordered map from path to tensor. -/
abbrev StateDict := List (List Char × PTensor)

/-- `str.startswith` on character lists. -/
def keyStartsWith : List Char → List Char → Bool
  | _, [] => true
  | [], _ :: _ => false
  | a :: as, b :: bs => a = b && keyStartsWith as bs

/-- Python `str.replace(pat, rep)`: replace every non-overlapping
occurrence of `pat`, scanning left to right. The first argument is
recursion fuel, instantiated with the string length (for a nonempty
pattern each step consumes at least one character, so the fuel is never
exhausted). -/
def replaceFuel (pat rep : List Char) : ℕ → List Char → List Char
  | _, [] => []
  | 0, c :: cs => c :: cs
  | fuel + 1, c :: cs =>
    if keyStartsWith (c :: cs) pat
    then rep ++ replaceFuel pat rep fuel ((c :: cs).drop pat.length)
    else c :: replaceFuel pat rep fuel cs

/-- `str.replace` at full fuel. -/
def keyReplace (l pat rep : List Char) : List Char :=
  replaceFuel pat rep l.length l

/-- The key renaming of `load_bert_weights` (`model.py` lines 110-113):
`gamma → weight`, `beta → bias`, and a leading `bert.` stripped. -/
def renameKey (k : List Char) : List Char :=
  let nk := keyReplace (keyReplace k "gamma".toList "weight".toList)
    "beta".toList "bias".toList
  if keyStartsWith nk "bert.".toList then nk.drop 5 else nk

/-- Python dict lookup on the ordered-pair model. -/
def dictGet (d : StateDict) (k : List Char) : Option PTensor :=
  (d.find? (fun e => e.1 = k)).map (fun e => e.2)

/-- Python `dict[k] = v`: overwrite an existing binding or append. -/
def dictSet (d : StateDict) (k : List Char) (v : PTensor) : StateDict :=
  if (d.find? (fun e => e.1 = k)).isSome
  then d.map (fun e => if e.1 = k then (k, v) else e)
  else d ++ [(k, v)]

/-- Python `del dict[k]`. -/
def dictDel (d : StateDict) (k : List Char) : StateDict :=
  d.filter (fun e => e.1 ≠ k)

/-- The renaming loop of `model.py` lines 110-117: iterate over the
original key list; whenever renaming changes a key, move its entry to the
new key. -/
def renameStateDict (d : StateDict) : StateDict :=
  (d.map (fun e => e.1)).foldl (fun acc key =>
    let new_key := renameKey key
    if key ≠ new_key then
      match dictGet acc key with
      | some v => dictDel (dictSet acc new_key v) key
      | none => acc
    else acc) d

/-- The parameters after the load: a present key with a matching shape is
copied from the checkpoint; everything else keeps its initialized
value. -/
def loadedParams (params : List ModelParam) (d : StateDict) : List ModelParam :=
  params.map (fun p =>
    match dictGet d p.key with
    | some t => if t.shape = p.init.shape then { p with init := t } else p
    | none => p)

/-- The missing keys collected by the load (never logged afterwards). -/
def missing_keys (params : List ModelParam) (d : StateDict) : List (List Char) :=
  (params.filter (fun p => (dictGet d p.key).isNone)).map (fun p => p.key)

/-- The size-mismatch messages collected by the load; each names the
offending parameter path. -/
def error_msgs (params : List ModelParam) (d : StateDict) : List (List Char) :=
  params.filterMap (fun p =>
    match dictGet d p.key with
    | some t => if t.shape = p.init.shape then none
        else some ("size mismatch for ".toList ++ p.key)
    | none => none)

/-- The state-dict keys matching no model parameter. -/
def unexpected_keys (params : List ModelParam) (d : StateDict) : List (List Char) :=
  (d.map (fun e => e.1)).filter (fun k => !params.any (fun p => p.key = k))

/-- `LukeBaseModel.load_bert_weights` (`model.py` lines 108-142): rename
the checkpoint keys, load by name matching, log unexpected keys at info
level (`model.py` lines 137-139), and raise when any size-mismatch
message was collected (lines 140-142). Missing keys are collected but
never logged. -/
def load_bert_weights (params : List ModelParam) (state_dict : StateDict) :
    Except (List (List Char)) (List ModelParam × List LogEvent) :=
  let d := renameStateDict state_dict
  let logs : List LogEvent :=
    if unexpected_keys params d = [] then []
    else [LogEvent.info ("Weights from pretrained model not used: ".toList
        ++ List.intercalate ", ".toList (unexpected_keys params d))]
  match error_msgs params d with
  | [] => Except.ok (loadedParams params d, logs)
  | errs => Except.error errs

/-- Lookup hits a cons cell whose key matches. -/
theorem dictGet_cons_of_eq (e : List Char × PTensor) (l : StateDict)
    (k : List Char) (he : e.1 = k) : dictGet (e :: l) k = some e.2 := by
  rw [dictGet, List.find?_cons_of_pos]
  · rfl
  · simp [he]

/-- Lookup skips a cons cell whose key differs. -/
theorem dictGet_cons_of_ne (e : List Char × PTensor) (l : StateDict)
    (k : List Char) (he : ¬e.1 = k) : dictGet (e :: l) k = dictGet l k := by
  rw [dictGet, dictGet, List.find?_cons_of_neg]
  simp [he]

/-- Dropping the entries whose key matches no parameter does not change
any parameter's lookup. -/
theorem dictGet_filter_any (d : StateDict) (params : List ModelParam)
    (p : ModelParam) (hp : p ∈ params) :
    dictGet (d.filter (fun e => params.any (fun q => q.key = e.1))) p.key
      = dictGet d p.key := by
  induction d with
  | nil => rfl
  | cons e rest ih =>
    by_cases he : e.1 = p.key
    · have hkeep : params.any (fun q => q.key = e.1) = true :=
        List.any_eq_true.mpr ⟨p, hp, by simp [he]⟩
      rw [List.filter_cons, if_pos (by simpa using hkeep),
        dictGet_cons_of_eq e _ _ he, dictGet_cons_of_eq e _ _ he]
    · cases hkeep : params.any (fun q => q.key = e.1)
      · rw [List.filter_cons, if_neg (by simp [hkeep]),
          dictGet_cons_of_ne e _ _ he, ih]
      · rw [List.filter_cons, if_pos (by simp [hkeep]),
          dictGet_cons_of_ne e _ _ he, dictGet_cons_of_ne e _ _ he, ih]

/-- C7 (amended): a shape mismatch is fatal — `load_bert_weights` raises
with the collected messages, and each mismatched parameter contributes a
message naming its path; without mismatches loading succeeds: parameters
with missing keys keep their initialized values, unexpected keys are
ignored by the load and are logged (at info level) when present, and no
log mentions the missing keys. -/
theorem load_bert_weights_error_handling (params : List ModelParam)
    (state_dict : StateDict) :
    (error_msgs params (renameStateDict state_dict) ≠ [] →
      load_bert_weights params state_dict
        = Except.error (error_msgs params (renameStateDict state_dict)))
    ∧ (∀ p ∈ params, ∀ t, dictGet (renameStateDict state_dict) p.key = some t →
        t.shape ≠ p.init.shape →
        ("size mismatch for ".toList ++ p.key)
          ∈ error_msgs params (renameStateDict state_dict))
    ∧ (error_msgs params (renameStateDict state_dict) = [] →
      load_bert_weights params state_dict
        = Except.ok (loadedParams params (renameStateDict state_dict),
            if unexpected_keys params (renameStateDict state_dict) = [] then []
            else [LogEvent.info ("Weights from pretrained model not used: ".toList
                ++ List.intercalate ", ".toList
                  (unexpected_keys params (renameStateDict state_dict)))]))
    ∧ (∀ p ∈ params, dictGet (renameStateDict state_dict) p.key = none →
        p ∈ loadedParams params (renameStateDict state_dict))
    ∧ loadedParams params (renameStateDict state_dict)
        = loadedParams params ((renameStateDict state_dict).filter
            (fun e => params.any (fun q => q.key = e.1))) := by
  have hload : load_bert_weights params state_dict
      = match error_msgs params (renameStateDict state_dict) with
        | [] => Except.ok (loadedParams params (renameStateDict state_dict),
            if unexpected_keys params (renameStateDict state_dict) = [] then []
            else [LogEvent.info ("Weights from pretrained model not used: ".toList
                ++ List.intercalate ", ".toList
                  (unexpected_keys params (renameStateDict state_dict)))])
        | errs => Except.error errs := rfl
  refine ⟨?_, ?_, ?_, ?_, ?_⟩
  · intro herr
    rw [hload]
    cases h : error_msgs params (renameStateDict state_dict) with
    | nil => exact absurd h herr
    | cons e es => rfl
  · intro p hp t ht hsh
    rw [error_msgs]
    refine List.mem_filterMap.mpr ⟨p, hp, ?_⟩
    rw [ht]
    show (if t.shape = p.init.shape then none
        else some ("size mismatch for ".toList ++ p.key))
      = some ("size mismatch for ".toList ++ p.key)
    rw [if_neg hsh]
  · intro herr
    rw [hload, herr]
  · intro p hp hnone
    rw [loadedParams]
    exact List.mem_map.mpr ⟨p, hp, by rw [hnone]⟩
  · rw [loadedParams, loadedParams]
    apply List.map_congr_left
    intro p hp
    rw [dictGet_filter_any (renameStateDict state_dict) params p hp]

/-- A model with only the entity-identity table as parameter. -/
def entityOnlyParams : List ModelParam :=
  [⟨"entity_embeddings.entity_embeddings.weight".toList, ⟨[3, 2], [0, 0, 0, 0, 0, 0]⟩⟩]

/-- C7 counterexample: loading an empty checkpoint leaves the entity key
missing, yet loading succeeds with an **empty** log — missing keys are
not logged (as a warning or otherwise), contrary to the claim. -/
theorem load_bert_weights_missing_not_logged :
    load_bert_weights entityOnlyParams [] = Except.ok (entityOnlyParams, [])
    ∧ missing_keys entityOnlyParams (renameStateDict [])
        = ["entity_embeddings.entity_embeddings.weight".toList] := by
  constructor
  · rfl
  · rfl

/-- Two parameters: one transformer-side key, one entity-side key. -/
def loaderParamsW : List ModelParam :=
  [⟨"encoder.layer.weight".toList, ⟨[2], [0, 0]⟩⟩,
   ⟨"entity_embeddings.entity_embeddings.weight".toList, ⟨[2], [1, 1]⟩⟩]

/-- A plain-transformer checkpoint: a legacy `bert.`-prefixed `gamma` key
matching the transformer parameter, plus an unexpected key. -/
def loaderStateDictW : StateDict :=
  [("bert.encoder.layer.gamma".toList, ⟨[2], [5, 5]⟩),
   ("unused.tensor".toList, ⟨[1], [9]⟩)]

/-- Witness for the amended C7: on the concrete checkpoint (renamed key
matches, entity key missing, one unexpected key) the load succeeds with
the described result, and the parameter with the missing key keeps its
initialized value. -/
theorem load_bert_weights_error_handling_witness :
    (load_bert_weights loaderParamsW loaderStateDictW
      = Except.ok (loadedParams loaderParamsW (renameStateDict loaderStateDictW),
          if unexpected_keys loaderParamsW (renameStateDict loaderStateDictW) = [] then []
          else [LogEvent.info ("Weights from pretrained model not used: ".toList
              ++ List.intercalate ", ".toList
                (unexpected_keys loaderParamsW (renameStateDict loaderStateDictW)))]))
    ∧ (⟨"entity_embeddings.entity_embeddings.weight".toList, ⟨[2], [1, 1]⟩⟩ : ModelParam)
        ∈ loadedParams loaderParamsW (renameStateDict loaderStateDictW) := by
  have h := load_bert_weights_error_handling loaderParamsW loaderStateDictW
  exact ⟨h.2.2.1 (by decide),
    h.2.2.2.1 ⟨"entity_embeddings.entity_embeddings.weight".toList, ⟨[2], [1, 1]⟩⟩
      (by decide) (by decide)⟩

end Luke
